import Mathlib

/-!
Shallow embedding of the fastq_demux repository (Molmed/fastq_demux).

Python dicts and collections.Counter objects are modelled as insertion-ordered
association lists (`List (κ × β)`): lookup finds the unique binding of a key,
an increment of a missing key appends a fresh binding at the end (Python dict
insertion order), and an update of a present key updates it in place.
Barcodes are modelled as `List Char` (Python `str`); `str.split("+")` and
`"+".join` are embedded as structurally recursive functions with the exact
Python semantics.  Python exceptions are modelled with `Option`/`Except`:
`KeyError` used for control flow becomes an `Option` miss, the matcher's
ambiguity exception and an out-of-range index become an explicit error type.
-/

namespace FastqDemux

abbrev Barcode := List Char

instance [DecidableEq e] [DecidableEq a] : DecidableEq (Except e a) := fun x y =>
  match x, y with
  | .error u, .error v =>
      if h : u = v then isTrue (by rw [h]) else isFalse (by intro hh; cases hh; exact h rfl)
  | .ok u, .ok v =>
      if h : u = v then isTrue (by rw [h]) else isFalse (by intro hh; cases hh; exact h rfl)
  | .error _, .ok _ => isFalse (by intro hh; cases hh)
  | .ok _, .error _ => isFalse (by intro hh; cases hh)

/-- Lookup in an association list (Python `d[k]` / `k in d`). -/
def alookup [DecidableEq κ] (k : κ) : List (κ × β) → Option β
  | [] => none
  | (k', v) :: rest => if k' = k then some v else alookup k rest

/-- In-place update of an existing binding (Python `d[k] = v` for present `k`). -/
def assocSet [DecidableEq κ] (k : κ) (v : β) : List (κ × β) → List (κ × β)
  | [] => []
  | (k', v') :: rest => if k' = k then (k', v) :: rest else (k', v') :: assocSet k v rest

/-- `Counter[k] += n`: increment a present binding in place, append a fresh
binding at the end otherwise (dict insertion order). -/
def bump [DecidableEq κ] (l : List (κ × Nat)) (k : κ) (n : Nat) : List (κ × Nat) :=
  match l with
  | [] => [(k, n)]
  | (k', m) :: rest => if k' = k then (k', m + n) :: rest else (k', m) :: bump rest k n

/-- Sum of all the counts in a count table (`sum(counter.values())`). -/
def sumCounts (l : List (κ × Nat)) : Nat := (l.map Prod.snd).sum

/-! ## demux.py: DemultiplexResults -/

/-- State of `DemultiplexResults` (demux.py).  `barcode_mismatches_count` is
keyed by barcode; each entry is a per-distance Counter (distances keyed by the
integer whose decimal string Python uses). -/
structure DemultiplexResults where
  barcode_to_sample_mapping : List (Barcode × String)
  barcode_counts : List (Barcode × Nat)
  barcode_mismatches_count : List (Barcode × List (Int × Nat))

/-- `DemultiplexResults.__init__`: empty counts, one empty per-distance Counter
per known barcode. -/
def DemultiplexResults.init (mapping : List (Barcode × String)) : DemultiplexResults :=
  ⟨mapping, [], mapping.map (fun p => (p.1, []))⟩

/-- `DemultiplexResults.add(barcode, n, distance)` (demux.py lines 26-38):
always bump the raw count; bump the per-distance histogram inside a
`try`/`except KeyError: pass`, so a barcode absent from
`barcode_mismatches_count` leaves the histogram table unchanged. -/
def DemultiplexResults.add (r : DemultiplexResults) (barcode : Barcode) (n : Nat)
    (distance : Int) : DemultiplexResults :=
  ⟨r.barcode_to_sample_mapping,
   bump r.barcode_counts barcode n,
   match alookup barcode r.barcode_mismatches_count with
   | none => r.barcode_mismatches_count
   | some hist => assocSet barcode (bump hist distance n) r.barcode_mismatches_count⟩

/-- `DemultiplexResults.known_barcode_counts` (demux.py lines 40-46). -/
def DemultiplexResults.known_barcode_counts (r : DemultiplexResults) : List (Barcode × Nat) :=
  r.barcode_counts.filter (fun p => (alookup p.1 r.barcode_to_sample_mapping).isSome)

/-- `DemultiplexResults.unknown_barcode_counts` (demux.py lines 48-54). -/
def DemultiplexResults.unknown_barcode_counts (r : DemultiplexResults) : List (Barcode × Nat) :=
  r.barcode_counts.filter (fun p => (alookup p.1 r.barcode_to_sample_mapping).isNone)

/-! ## demux.py: summarize_counts -/

/-- One step of a stable descending insertion sort on counts: insert before the
first element of no larger count, after all strictly earlier elements of the
same count. -/
def insertDesc (x : κ × Nat) : List (κ × Nat) → List (κ × Nat)
  | [] => [x]
  | y :: ys => if y.2 ≤ x.2 then x :: y :: ys else y :: insertDesc x ys

/-- Stable sort by count, descending; ties keep insertion (first-seen) order.
Embeds the semantics of Python's stable `sorted(..., key=count, reverse=True)`
used by `Counter.most_common`. -/
def sortDesc : List (κ × Nat) → List (κ × Nat)
  | [] => []
  | x :: xs => insertDesc x (sortDesc xs)

/-- `Counter.most_common(n)`: count-descending stable sort, optionally
truncated to the first `n` entries. -/
def most_common (l : List (κ × Nat)) : Option Nat → List (κ × Nat)
  | none => sortDesc l
  | some n => (sortDesc l).take n

/-- Round-half-to-even on rationals (the rounding rule of Python's builtin
`round`). -/
def roundHalfEven (q : ℚ) : ℤ :=
  if q - ⌊q⌋ < 1/2 then ⌊q⌋
  else if 1/2 < q - ⌊q⌋ then ⌊q⌋ + 1
  else if 2 ∣ ⌊q⌋ then ⌊q⌋ else ⌊q⌋ + 1

/-- `round(q, 1)`: round to one decimal place, half to even.  Real-number
idealization of the Python float computation. -/
def round1 (q : ℚ) : ℚ := (roundHalfEven (q * 10) : ℚ) / 10

/-- The `counter` selected by the `barcode_set` branch of `summarize_counts`
(demux.py lines 86-90). -/
def DemultiplexResults.counterFor (r : DemultiplexResults) (barcode_set : String) :
    List (Barcode × Nat) :=
  if barcode_set = "known" then r.known_barcode_counts
  else if barcode_set = "unknown" then r.unknown_barcode_counts
  else r.barcode_counts

/-- `DemultiplexResults.summarize_counts(barcode_set, n_values)` (demux.py
lines 72-96): the grand total is taken over ALL of `barcode_counts` before the
subset is selected; the subset counter is listed via `most_common(n_values)`
and each entry carries `round(100 * count / total, 1)`. -/
def DemultiplexResults.summarize_counts (r : DemultiplexResults) (barcode_set : String)
    (n_values : Option Nat) : List (Barcode × Nat × ℚ) :=
  let total : Nat := sumCounts r.barcode_counts
  (most_common (r.counterFor barcode_set) n_values).map
    (fun p => (p.1, p.2, round1 ((100 * p.2 : ℚ) / (total : ℚ))))

/-! ## demux.py: barcode matching -/

/-- `FastqMismatchDemultiplexer.hamming_distance` (demux.py lines 209-211):
`sum(int(s1 != s2) for (s1, s2) in zip(str1, str2))`. -/
def hamming_distance (str1 str2 : Barcode) : Nat :=
  ((str1.zip str2).map (fun p => if p.1 ≠ p.2 then 1 else 0)).sum

/-- Python `s.split("+")`: `"" ↦ [""]`, separators produce empty segments. -/
def splitPlus : Barcode → List Barcode
  | [] => [[]]
  | c :: rest =>
      if c = '+' then [] :: splitPlus rest
      else
        match splitPlus rest with
        | [] => [[c]]
        | s :: ss => (c :: s) :: ss

/-- Python `"+".join(segments)`. -/
def joinPlus : List Barcode → Barcode
  | [] => []
  | [s] => s
  | s :: rest => s ++ '+' :: joinPlus rest

/-- Errors raised by the mismatch matcher: the explicit ambiguity exception
(demux.py lines 226-228), and the uncaught `IndexError` of
`k.split("+")[ix]` for a known barcode with too few segments. -/
inductive DemuxError where
  | ambiguous : DemuxError
  | indexError : DemuxError
deriving DecidableEq

/-- Python `list.index` as an option (`ValueError ↦ none`). -/
def idxOf? [DecidableEq κ] (x : κ) : List κ → Option Nat
  | [] => none
  | y :: ys => if y = x then some 0 else (idxOf? x ys).map (· + 1)

/-- Python `list.count(x)`. -/
def countOcc [DecidableEq κ] (x : κ) (l : List κ) : Nat :=
  (l.filter (fun y => decide (y = x))).length

/-- `len(set(l))`: the number of distinct elements of `l`. -/
def distinctCount [DecidableEq κ] : List κ → Nat
  | [] => 0
  | x :: xs => if x ∈ xs then distinctCount xs else distinctCount xs + 1

/-- The `while no_mm < self.mismatches` loop of
`match_mismatched_single_barcode` (demux.py lines 218-232), scanning the
candidate distances `cands` in order: at the first distance present in
`distances`, either the ambiguity exception (more than one entry at that
distance with more than one distinct segment value) or the first segment
achieving it; `("", -1)` when the scan is exhausted. -/
def matchScan (known_barcodes : List Barcode) (distances : List Nat) :
    List Nat → Except DemuxError (Barcode × Int)
  | [] => .ok ([], -1)
  | no_mm :: cands =>
      match idxOf? no_mm distances with
      | none => matchScan known_barcodes distances cands
      | some i =>
          if countOcc no_mm distances > 1 ∧
              distinctCount (((known_barcodes.zip distances).filter
                (fun p => decide (p.2 = no_mm))).map Prod.fst) > 1 then
            .error .ambiguous
          else
            .ok (known_barcodes.getD i [], (no_mm : Int))

/-- `FastqMismatchDemultiplexer.match_mismatched_single_barcode`
(demux.py lines 213-232). -/
def match_mismatched_single_barcode (mismatches : Nat) (barcode : Barcode)
    (known_barcodes : List Barcode) : Except DemuxError (Barcode × Int) :=
  matchScan known_barcodes (known_barcodes.map (fun x => hamming_distance x barcode))
    (List.range (mismatches + 1))

/-- Configuration of a `FastqMismatchDemultiplexer`: the barcode-to-sample
mapping held by its `DemultiplexResults`, the unknown-barcode sentinel and the
mismatch tolerance. -/
structure MismatchConfig where
  mapping : List (Barcode × String)
  unknown : Barcode
  mismatches : Nat

/-- `list(mapping.keys())` in insertion order. -/
def keysOf (mapping : List (Barcode × String)) : List Barcode := mapping.map Prod.fst

/-- `[k.split("+")[ix] for k in keys]`: the `ix`-th segment of every key;
an out-of-range index raises (`IndexError`). -/
def segmentsAt (keys : List Barcode) (ix : Nat) : Except DemuxError (List Barcode) :=
  match keys with
  | [] => .ok []
  | k :: rest =>
      match (splitPlus k).get? ix with
      | none => .error .indexError
      | some s => (segmentsAt rest ix).map (fun l => s :: l)

/-- The `for ix, sindex in enumerate(barcode.split("+"))` loop of
`match_mismatched_barcode` (demux.py lines 239-243): per observed segment,
the per-segment match and its distance, in order. -/
def matchAllSegments (cfg : MismatchConfig) : Nat → List Barcode →
    Except DemuxError (List (Barcode × Int))
  | _, [] => .ok []
  | ix, sindex :: rest =>
      match segmentsAt ((keysOf cfg.mapping).filter
          (fun k => decide (k ≠ cfg.unknown))) ix with
      | .error e => .error e
      | .ok known_barcodes =>
          match match_mismatched_single_barcode cfg.mismatches sindex known_barcodes with
          | .error e => .error e
          | .ok mkd =>
              match matchAllSegments cfg (ix + 1) rest with
              | .error e => .error e
              | .ok ps => .ok (mkd :: ps)

/-- `FastqMismatchDemultiplexer.match_mismatched_barcode` (demux.py lines
234-250), returning the triple stored into `self.mismatched_barcodes`:
(resolved barcode, distance, counted barcode). -/
def match_mismatched_barcode (cfg : MismatchConfig) (barcode : Barcode) :
    Except DemuxError (Barcode × Int × Barcode) :=
  match matchAllSegments cfg 0 (splitPlus barcode) with
  | .error e => .error e
  | .ok ps =>
      let matched_barcode := joinPlus (ps.map Prod.fst)
      let distance := ps.foldl (fun acc p => max p.2 acc) (0 : Int)
      if matched_barcode ∈ keysOf cfg.mapping then
        .ok (matched_barcode, distance, matched_barcode)
      else
        .ok (cfg.unknown, 0, barcode)

/-- Per-segment matching as the spec words it, with ambiguity decided by the
number of distinct SEGMENT STRINGS achieving the first achievable distance:
scan `0..k` for the least distance achieved by some known segment; error iff
several distinct segment values achieve it; otherwise the first achieving
segment.  Comparison definition for the amended claim C1. -/
def matchSingleSpec (mismatches : Nat) (barcode : Barcode)
    (known_barcodes : List Barcode) : Except DemuxError (Barcode × Int) :=
  match (List.range (mismatches + 1)).find?
      (fun d => decide (d ∈ known_barcodes.map (fun x => hamming_distance x barcode))) with
  | none => .ok ([], -1)
  | some d =>
      if 1 < distinctCount (((known_barcodes.zip
            (known_barcodes.map (fun x => hamming_distance x barcode))).filter
            (fun p => decide (p.2 = d))).map Prod.fst)
      then .error .ambiguous
      else .ok ((((known_barcodes.zip
            (known_barcodes.map (fun x => hamming_distance x barcode))).filter
            (fun p => decide (p.2 = d))).map Prod.fst).headD [], (d : Int))

/-! ## writer.py and demux.py: the demultiplex engine

A sink registry (`FastqFileWriterHandler.fastq_file_writers`) is modelled as
an association list from barcode to the list of records written so far, the
record type `α` left abstract (writer.py appends each record's reads to the
barcode's per-read files, in order). -/

/-- `FastqFileWriterHandler.write_fastq_record(barcode, record)` (writer.py
lines 125-136): append the record to the barcode's sink; `none` models the
`KeyError` raised when no writer exists for the barcode. -/
def write_fastq_record (sinks : List (Barcode × List α)) (barcode : Barcode) (rec : α) :
    Option (List (Barcode × List α)) :=
  match alookup barcode sinks with
  | none => none
  | some written => some (assocSet barcode (written ++ [rec]) sinks)

/-- `FastqDemultiplexer.demultiplex_record` (demux.py lines 191-204, the exact,
`mismatches == 0` engine): try the observed barcode's sink, fall back to the
unknown sentinel's sink on `KeyError`, then `add(barcode)` (n = 1,
distance = 0).  `none` models an uncaught `KeyError` (both sinks missing). -/
def FastqDemultiplexer.demultiplex_record (unknown_barcode : Barcode)
    (sinks : List (Barcode × List α)) (results : DemultiplexResults)
    (fastq_record : α) (barcode : Barcode) :
    Option (List (Barcode × List α) × DemultiplexResults) :=
  match write_fastq_record sinks barcode fastq_record with
  | some sinks' => some (sinks', results.add barcode 1 0)
  | none =>
      match write_fastq_record sinks unknown_barcode fastq_record with
      | some sinks' => some (sinks', results.add barcode 1 0)
      | none => none

/-- `FastqDemultiplexer.demultiplex` (demux.py lines 178-186): fold
`demultiplex_record` over the parsed (record, barcode) stream. -/
def FastqDemultiplexer.demultiplex (unknown_barcode : Barcode)
    (sinks : List (Barcode × List α)) (results : DemultiplexResults) :
    List (α × Barcode) → Option (List (Barcode × List α) × DemultiplexResults)
  | [] => some (sinks, results)
  | (rec, barcode) :: rest =>
      match FastqDemultiplexer.demultiplex_record unknown_barcode sinks results rec barcode with
      | none => none
      | some (sinks', results') =>
          FastqDemultiplexer.demultiplex unknown_barcode sinks' results' rest

/-- The memoization cache `FastqMismatchDemultiplexer.mismatched_barcodes`:
observed barcode ↦ (resolved barcode, distance, counted barcode).  A Python
dict assignment is modelled by consing the new binding (it shadows any older
one under `alookup`). -/
abbrev Cache := List (Barcode × (Barcode × Int × Barcode))

/-- `FastqMismatchDemultiplexer.demultiplex_record` (demux.py lines 252-268):
look the barcode up in the cache and write to the cached resolved barcode's
sink; on `KeyError` (cache miss OR missing sink) recompute
`match_mismatched_barcode`, store it, and retry the whole method; on a
successful write, `add(counted barcode, distance=cached distance)`.  The
recursion is bounded by explicit fuel: `none` means the recursion does not
terminate within `fuel` retries; `some (.error e)` models the matcher's
exception propagating. -/
def FastqMismatchDemultiplexer.demultiplex_record (cfg : MismatchConfig)
    (sinks : List (Barcode × List α)) (results : DemultiplexResults) (cache : Cache)
    (fastq_record : α) (barcode : Barcode) :
    Nat → Option (Except DemuxError (List (Barcode × List α) × DemultiplexResults × Cache))
  | 0 => none
  | fuel + 1 =>
      match alookup barcode cache with
      | some t =>
          match write_fastq_record sinks t.1 fastq_record with
          | some sinks' =>
              some (.ok (sinks', results.add t.2.2 1 t.2.1, cache))
          | none =>
              match match_mismatched_barcode cfg barcode with
              | .error e => some (.error e)
              | .ok t' =>
                  FastqMismatchDemultiplexer.demultiplex_record cfg sinks results
                    ((barcode, t') :: cache) fastq_record barcode fuel
      | none =>
          match match_mismatched_barcode cfg barcode with
          | .error e => some (.error e)
          | .ok t' =>
              FastqMismatchDemultiplexer.demultiplex_record cfg sinks results
                ((barcode, t') :: cache) fastq_record barcode fuel

/-- The cache invariant: every cached binding is the value the pure matcher
computes for its key (the configuration is fixed for the run). -/
def cacheOK (cfg : MismatchConfig) (cache : Cache) : Prop :=
  ∀ b t, alookup b cache = some t → match_mismatched_barcode cfg b = .ok t

/-! ## parser.py: the synchronized record stream

A file handle is a list of its (not yet consumed) lines; the line type `L` is
abstract (the per-line `.strip()` of `record_from_handle` transforms line
contents only and is irrelevant to record segmentation and length
accounting). -/

/-- `FastqFileParser.record_from_handle` (parser.py lines 150-152): take 4
lines; on `StopIteration` mid-record the handle is left drained (`next`
consumed every remaining line before failing). -/
def record_from_handle (handle : List L) : Option (List L) × List L :=
  match handle with
  | a :: b :: c :: d :: rest => (some [a, b, c, d], rest)
  | _ => (none, [])

/-- `records_from_handles` over a list of handles (parser.py lines 142-148):
one 4-line record from each handle in order; at the first exhausted handle the
`StopIteration` propagates, leaving earlier handles advanced, the failing one
drained and the later ones untouched. -/
def records_from_handles : List (List L) → Option (List (List L)) × List (List L)
  | [] => (some [], [])
  | h :: rest =>
      match record_from_handle h with
      | (none, h') => (none, h' :: rest)
      | (some r, h') =>
          match records_from_handles rest with
          | (none, rest') => (none, h' :: rest')
          | (some rs, rest') => (some (r :: rs), h' :: rest')

/-- The `while True: yield ...` loop of `fastq_records` (parser.py lines
90-95), with the R1 handle (always present) first: yield one record per handle
per step until a `StopIteration` escapes `records_from_handles`; returns the
yielded steps and the final handle states. -/
def fastqRecordsLoop : List L → List (List L) → List (List (List L)) × List (List L)
  | a :: b :: c :: d :: h1rest, rest =>
      (match records_from_handles rest with
       | (none, rest') => ([], h1rest :: rest')
       | (some rs, rest') =>
          match fastqRecordsLoop h1rest rest' with
          | (steps, final) => (([a, b, c, d] :: rs) :: steps, final))
  | _, rest => ([], [] :: rest)

/-- `FastqFileParser._ensure_generator_empty` (parser.py lines 61-67): one
`next` attempt; true iff it raises `StopIteration`. -/
def ensure_generator_empty (handle : List L) : Bool :=
  match handle with
  | [] => true
  | _ :: _ => false

/-- `FastqFileParser.ensure_filehandles_empty` (parser.py lines 69-77). -/
def ensure_filehandles_empty (handles : List (List L)) : Bool :=
  (handles.map (fun h => ensure_generator_empty h)).all id

/-- `FastqFileParser.fastq_records` (parser.py lines 79-103): the yielded
record steps, paired with `true` iff the final length check fails, i.e. the
`Exception` naming all the input files is raised. -/
def fastq_records (h1 : List L) (rest : List (List L)) :
    List (List (List L)) × Bool :=
  match fastqRecordsLoop h1 rest with
  | (steps, final) => (steps, ! ensure_filehandles_empty final)

/-- The number of complete 4-line records a handle's line list contains. -/
def recordCount (handle : List L) : Nat := handle.length / 4

/-- Total number of records written across all sinks. -/
def sinksSize (sinks : List (Barcode × List α)) : Nat :=
  (sinks.map (fun p => p.2.length)).sum

/-! ## Lemmas about the association-list primitives -/

theorem alookup_bump_self [DecidableEq κ] (l : List (κ × Nat)) (k : κ) (n : Nat) :
    alookup k (bump l k n) = some ((alookup k l).getD 0 + n) := by
  induction l with
  | nil => simp [bump, alookup]
  | cons p rest ih =>
      obtain ⟨k', m⟩ := p
      by_cases h : k' = k
      · subst h; simp [bump, alookup]
      · simp [bump, alookup, h, ih]

theorem alookup_bump_other [DecidableEq κ] (l : List (κ × Nat)) (k k' : κ) (n : Nat)
    (h : k' ≠ k) : alookup k' (bump l k n) = alookup k' l := by
  have h' : ¬ k = k' := fun hh => h hh.symm
  induction l with
  | nil => simp [bump, alookup, h']
  | cons p rest ih =>
      obtain ⟨k'', m⟩ := p
      by_cases hk : k'' = k
      · have h2 : ¬ k'' = k' := by rw [hk]; exact h'
        simp [bump, alookup, hk, h2, h']
      · by_cases hk' : k'' = k'
        · simp [bump, alookup, hk, hk', h]
        · simp [bump, alookup, hk, hk', ih]

theorem alookup_assocSet_self [DecidableEq κ] (l : List (κ × β)) (k : κ) (v w : β)
    (h : alookup k l = some w) : alookup k (assocSet k v l) = some v := by
  induction l with
  | nil => simp [alookup] at h
  | cons p rest ih =>
      obtain ⟨k', v'⟩ := p
      by_cases hk : k' = k
      · subst hk; simp [assocSet, alookup]
      · simp only [alookup, if_neg hk] at h
        simp [assocSet, alookup, hk, ih h]

theorem sumCounts_bump [DecidableEq κ] (l : List (κ × Nat)) (k : κ) (n : Nat) :
    sumCounts (bump l k n) = sumCounts l + n := by
  induction l with
  | nil => simp [bump, sumCounts]
  | cons p rest ih =>
      obtain ⟨k', m⟩ := p
      by_cases h : k' = k
      · subst h; simp [bump, sumCounts]; omega
      · simp [bump, sumCounts, h] at ih ⊢; omega

theorem sinksSize_assocSet_append (sinks : List (Barcode × List α)) (k : Barcode)
    (w : List α) (x : α) (h : alookup k sinks = some w) :
    sinksSize (assocSet k (w ++ [x]) sinks) = sinksSize sinks + 1 := by
  induction sinks with
  | nil => simp [alookup] at h
  | cons p rest ih =>
      obtain ⟨k', w'⟩ := p
      by_cases hk : k' = k
      · subst hk
        simp only [alookup, if_pos rfl] at h
        have hw : w' = w := by
          cases h; rfl
        subst hw
        simp [assocSet, sinksSize, List.length_append]
        omega
      · simp only [alookup, if_neg hk] at h
        have h2 := ih h
        simp only [sinksSize] at h2
        simp only [assocSet, if_neg hk, sinksSize, List.map_cons, List.sum_cons]
        omega

/-! ## Claim C7: hamming_distance -/

theorem hamming_distance_comm (a b : Barcode) : hamming_distance a b = hamming_distance b a := by
  induction a generalizing b with
  | nil => cases b <;> simp [hamming_distance]
  | cons x xs ih =>
      cases b with
      | nil => simp [hamming_distance]
      | cons y ys =>
          simp only [hamming_distance, List.zip_cons_cons, List.map_cons, List.sum_cons] at ih ⊢
          rw [ih ys]
          by_cases h : x = y
          · subst h; simp
          · have h' : ¬ y = x := fun hh => h hh.symm
            simp [h, h']

theorem hamming_distance_eq_zero_iff (a b : Barcode) :
    hamming_distance a b = 0 ↔
      a.take (min a.length b.length) = b.take (min a.length b.length) := by
  induction a generalizing b with
  | nil => simp [hamming_distance]
  | cons x xs ih =>
      cases b with
      | nil => simp [hamming_distance]
      | cons y ys =>
          simp only [hamming_distance, List.zip_cons_cons, List.map_cons, List.sum_cons,
            List.length_cons, Nat.succ_min_succ, List.take_succ_cons, List.cons.injEq]
          constructor
          · intro h
            by_cases hxy : x = y
            · subst hxy
              simp only [ne_eq, not_true_eq_false, if_false, Nat.zero_add] at h
              exact ⟨rfl, (ih ys).mp h⟩
            · simp [hxy] at h
          · rintro ⟨rfl, h⟩
            simp only [ne_eq, not_true_eq_false, if_false, Nat.zero_add]
            exact (ih ys).mpr h

/-- Claim C7: `hamming_distance` is symmetric; the comparison covers only
positions up to the length of the shorter string, and the result is zero iff
the two strings agree on that compared prefix; in particular
`hamming_distance "ABCD" "ABC" = 0`. -/
theorem C7_hamming_distance_properties :
    (∀ a b : Barcode, hamming_distance a b = hamming_distance b a)
    ∧ (∀ a b : Barcode, hamming_distance a b = 0 ↔
        a.take (min a.length b.length) = b.take (min a.length b.length))
    ∧ hamming_distance "ABCD".data "ABC".data = 0 :=
  ⟨hamming_distance_comm, hamming_distance_eq_zero_iff, by decide⟩

/-! ## Claim C9: DemultiplexResults.add -/

/-- Claim C9: `add(barcode, n, distance)` always increments the raw count of
`barcode` by `n`; when `barcode` is a key of the known-barcode mapping (the
keys of the histogram table coincide with the mapping's keys, as
`DemultiplexResults.__init__` sets up), the per-distance histogram bucket at
`distance` is additionally incremented by `n`; when it is not, the histogram
table is left entirely unchanged and no error is raised. -/
theorem C9_add_raw_count_and_histogram (r : DemultiplexResults) (b : Barcode)
    (n : Nat) (d : Int)
    (hkeys : (alookup b r.barcode_mismatches_count).isSome
      = (alookup b r.barcode_to_sample_mapping).isSome) :
    alookup b (r.add b n d).barcode_counts = some ((alookup b r.barcode_counts).getD 0 + n)
    ∧ ((alookup b r.barcode_to_sample_mapping).isSome →
        ∃ hist, alookup b r.barcode_mismatches_count = some hist
          ∧ alookup b (r.add b n d).barcode_mismatches_count = some (bump hist d n))
    ∧ ((alookup b r.barcode_to_sample_mapping).isNone →
        (r.add b n d).barcode_mismatches_count = r.barcode_mismatches_count) := by
  refine ⟨alookup_bump_self r.barcode_counts b n, ?_, ?_⟩
  · intro hin
    rw [← hkeys] at hin
    obtain ⟨hist, hh⟩ := Option.isSome_iff_exists.mp hin
    refine ⟨hist, hh, ?_⟩
    simp only [DemultiplexResults.add, hh]
    exact alookup_assocSet_self _ _ _ _ hh
  · intro hout
    rw [Option.isNone_iff_eq_none] at hout
    have : alookup b r.barcode_mismatches_count = none := by
      cases hmc : alookup b r.barcode_mismatches_count with
      | none => rfl
      | some hist => rw [hmc, hout] at hkeys; simp at hkeys
    simp [DemultiplexResults.add, this]

/-! ## Claim C3: the exact (mismatches = 0) engine -/

/-- Claim C3: with mismatches = 0, a record whose observed barcode is a key of
the known-barcode mapping (and so has a registered sink) is appended to that
barcode's sink and counted under that barcode with distance 0; a record whose
observed barcode is not in the mapping is appended to the unknown sentinel's
sink and its count is attributed to the raw observed barcode, still with
distance 0.  The hypothesis states that a sink is registered exactly for the
mapping's keys plus the unknown sentinel. -/
theorem C3_exact_engine {α : Type} (unknown_barcode : Barcode)
    (sinks : List (Barcode × List α)) (r : DemultiplexResults) (rec : α) (b : Barcode)
    (hsinks : ∀ k : Barcode, (alookup k sinks).isSome ↔
      ((alookup k r.barcode_to_sample_mapping).isSome ∨ k = unknown_barcode)) :
    ((alookup b r.barcode_to_sample_mapping).isSome →
      ∃ old, alookup b sinks = some old ∧
        FastqDemultiplexer.demultiplex_record unknown_barcode sinks r rec b
          = some (assocSet b (old ++ [rec]) sinks, r.add b 1 0))
    ∧ ((alookup b r.barcode_to_sample_mapping).isNone → b ≠ unknown_barcode →
      ∃ oldu, alookup unknown_barcode sinks = some oldu ∧
        FastqDemultiplexer.demultiplex_record unknown_barcode sinks r rec b
          = some (assocSet unknown_barcode (oldu ++ [rec]) sinks, r.add b 1 0)) := by
  constructor
  · intro hin
    have hs : (alookup b sinks).isSome := (hsinks b).mpr (Or.inl hin)
    obtain ⟨old, hold⟩ := Option.isSome_iff_exists.mp hs
    refine ⟨old, hold, ?_⟩
    simp [FastqDemultiplexer.demultiplex_record, write_fastq_record, hold]
  · intro hout hne
    have hbs : alookup b sinks = none := by
      cases hb : alookup b sinks with
      | none => rfl
      | some w =>
          have := (hsinks b).mp (by rw [hb]; rfl)
          rw [Option.isNone_iff_eq_none] at hout
          rcases this with h1 | h2
          · rw [hout] at h1; simp at h1
          · exact absurd h2 hne
    have hu : (alookup unknown_barcode sinks).isSome := (hsinks _).mpr (Or.inr rfl)
    obtain ⟨oldu, holdu⟩ := Option.isSome_iff_exists.mp hu
    refine ⟨oldu, holdu, ?_⟩
    simp [FastqDemultiplexer.demultiplex_record, write_fastq_record, hbs, holdu]

/-- Witness for C3: one known and one unknown barcode at a concrete state. -/
theorem C3_witness :
    (∀ k : Barcode,
      (alookup k [("AA".data, ([] : List Unit)), ("U".data, [])]).isSome ↔
        ((alookup k (DemultiplexResults.init [("AA".data, "S1")]).barcode_to_sample_mapping).isSome
          ∨ k = "U".data))
    ∧ FastqDemultiplexer.demultiplex_record "U".data
        [("AA".data, ([] : List Unit)), ("U".data, [])]
        (DemultiplexResults.init [("AA".data, "S1")]) () "AA".data
      = some ([("AA".data, [()]), ("U".data, [])],
          (DemultiplexResults.init [("AA".data, "S1")]).add "AA".data 1 0)
    ∧ FastqDemultiplexer.demultiplex_record "U".data
        [("AA".data, ([] : List Unit)), ("U".data, [])]
        (DemultiplexResults.init [("AA".data, "S1")]) () "GG".data
      = some ([("AA".data, []), ("U".data, [()])],
          (DemultiplexResults.init [("AA".data, "S1")]).add "GG".data 1 0) := by
  have hsinks : ∀ k : Barcode,
      (alookup k [("AA".data, ([] : List Unit)), ("U".data, [])]).isSome ↔
        ((alookup k (DemultiplexResults.init [("AA".data, "S1")]).barcode_to_sample_mapping).isSome
          ∨ k = "U".data) := by
    intro k
    by_cases h1 : k = "AA".data
    · subst h1; decide
    · by_cases h2 : k = "U".data
      · subst h2; decide
      · have g1 : ¬ ("AA".data : Barcode) = k := fun hh => h1 hh.symm
        have g2 : ¬ ("U".data : Barcode) = k := fun hh => h2 hh.symm
        simp [alookup, DemultiplexResults.init, g1, g2, h2]
  refine ⟨hsinks, ?_, ?_⟩
  · obtain ⟨old, h1, h2⟩ := (C3_exact_engine "U".data _ _ () "AA".data hsinks).1 (by decide)
    have hv : alookup "AA".data [("AA".data, ([] : List Unit)), ("U".data, [])]
        = some [] := by decide
    rw [hv] at h1
    injection h1 with h
    subst h
    exact h2
  · obtain ⟨oldu, h1, h2⟩ := (C3_exact_engine "U".data _ _ () "GG".data hsinks).2
      (by decide) (by decide)
    have hv : alookup "U".data [("AA".data, ([] : List Unit)), ("U".data, [])]
        = some [] := by decide
    rw [hv] at h1
    injection h1 with h
    subst h
    exact h2

/-! ## Claim C4: the missing-sink fallback -/

/-- Counterexample to claim C4: the mapping knows barcode "AA" but no sink is
registered for it (only the unknown sentinel "U" has one).  The exact engine
does fall back to the unknown sink and terminates, but the count goes to the
raw barcode "AA", which is a KNOWN barcode: the record is counted as known,
not as unknown, contradicting "counts the record as unknown". -/
theorem C4_counterexample :
    (FastqDemultiplexer.demultiplex_record "U".data [("U".data, ([] : List Unit))]
        (DemultiplexResults.init [("AA".data, "S1")]) () "AA".data).map
        (fun p => (p.1, p.2.known_barcode_counts, p.2.unknown_barcode_counts))
      = some ([("U".data, [()])], [("AA".data, 1)], ([] : List (Barcode × Nat))) := by
  rfl

/-- Amended claim C4: (a) in the exact engine, a record whose resolved (=
observed) barcode has no registered sink is written to the unknown sentinel's
sink and processing terminates normally, but the count is attributed to the
observed barcode itself (appearing as unknown only if that barcode is outside
the mapping); (b) in the mismatch-tolerant engine there is no such fallback:
when the resolved barcode's sink is missing, the `except KeyError` branch
recomputes the resolution and retries the method, and this retry loop never
terminates (it fails for every amount of fuel). -/
theorem C4_amended :
    (∀ (α : Type) (unknown_barcode : Barcode) (sinks : List (Barcode × List α))
        (r : DemultiplexResults) (rec : α) (b : Barcode) (oldu : List α),
      alookup b sinks = none → alookup unknown_barcode sinks = some oldu →
        FastqDemultiplexer.demultiplex_record unknown_barcode sinks r rec b
          = some (assocSet unknown_barcode (oldu ++ [rec]) sinks, r.add b 1 0))
    ∧ (∀ (α : Type) (cfg : MismatchConfig) (sinks : List (Barcode × List α))
        (r : DemultiplexResults) (cache : Cache) (rec : α) (b : Barcode)
        (t : Barcode × Int × Barcode),
      cacheOK cfg cache → match_mismatched_barcode cfg b = .ok t →
      alookup t.1 sinks = none →
        ∀ fuel, FastqMismatchDemultiplexer.demultiplex_record cfg sinks r cache rec b fuel
          = none) := by
  constructor
  · intro α unknown_barcode sinks r rec b oldu hb hu
    simp [FastqDemultiplexer.demultiplex_record, write_fastq_record, hb, hu]
  · intro α cfg sinks r cache rec b t hOK hmatch hsink fuel
    induction fuel generalizing cache with
    | zero => rfl
    | succ fuel ih =>
        have step : ∀ cache' : Cache, cacheOK cfg cache' →
            FastqMismatchDemultiplexer.demultiplex_record cfg sinks r
              ((b, t) :: cache') rec b fuel = none := by
          intro cache' hOK'
          apply ih
          intro b' t' hl
          by_cases hb' : b = b'
          · subst hb'
            simp only [alookup, if_pos rfl] at hl
            cases hl
            exact hmatch
          · simp only [alookup, if_neg hb'] at hl
            exact hOK' b' t' hl
        cases hc : alookup b cache with
        | some t0 =>
            have ht0 : t0 = t := by
              have := hOK b t0 hc
              rw [this] at hmatch
              cases hmatch
              rfl
            subst ht0
            simp only [FastqMismatchDemultiplexer.demultiplex_record, hc,
              write_fastq_record, hsink, hmatch]
            exact step cache hOK
        | none =>
            simp only [FastqMismatchDemultiplexer.demultiplex_record, hc, hmatch]
            exact step cache hOK

/-- Witness for C4's amended statement: concrete malformed sink registries for
both engines. -/
theorem C4_amended_witness :
    (FastqDemultiplexer.demultiplex_record "U".data [("U".data, ([] : List Unit))]
        (DemultiplexResults.init [("AA".data, "S1")]) () "AA".data
      = some (assocSet "U".data ([] ++ [()]) [("U".data, ([] : List Unit))],
          (DemultiplexResults.init [("AA".data, "S1")]).add "AA".data 1 0))
    ∧ FastqMismatchDemultiplexer.demultiplex_record
        ⟨[("AA".data, "S1")], "U".data, 1⟩ ([("AA".data, [])] : List (Barcode × List Unit))
        (DemultiplexResults.init [("AA".data, "S1")]) [] () "TT".data 5
      = none := by
  constructor
  · exact C4_amended.1 Unit "U".data _ _ () "AA".data [] (by decide) (by decide)
  · have hOK : cacheOK ⟨[("AA".data, "S1")], "U".data, 1⟩ [] := by
      intro b t hl
      simp [alookup] at hl
    exact C4_amended.2 Unit ⟨[("AA".data, "S1")], "U".data, 1⟩ _ _ [] () "TT".data
      ("U".data, 0, "TT".data) hOK (by rfl) (by rfl) 5

/-! ## Claim C5: the synchronized stream length check -/

/-- Claim C5 failing input: an R1 handle with 8 lines (2 records) and an R2
handle with 4 lines (1 record).  `fastq_records` yields one step and the
end-of-stream verification raises NO error, although the streams contain
unequal numbers of records (2 vs 1): R1's surplus record was consumed inside
the failed `records_from_handles` attempt, so every handle is already
exhausted when `ensure_filehandles_empty` probes it. -/
theorem C5_failing_input :
    fastq_records (List.range 8) [List.range 4]
      = ([[[0, 1, 2, 3], [0, 1, 2, 3]]], false)
    ∧ recordCount (List.range 8) = 2
    ∧ recordCount (List.range 4) = 1
    ∧ recordCount (List.range 8) ≠ recordCount (List.range 4) := by
  refine ⟨rfl, rfl, rfl, by decide⟩

/-! ## Claim C2: unmatched composite resolves to the unknown sentinel -/

/-- Claim C2: whenever per-segment matching succeeds but the `+`-join of the
per-segment best matches is not a key of the known-barcode mapping, the
triple stored for the observed barcode is (unknown sentinel, distance 0,
original observed barcode); consequently the engine, on such a record, counts
1 under the ORIGINAL observed barcode with distance 0 and writes the record
to the unknown sentinel's sink. -/
theorem C2_unmatched_composite_is_unknown (cfg : MismatchConfig) (barcode : Barcode)
    (ps : List (Barcode × Int))
    (hA : matchAllSegments cfg 0 (splitPlus barcode) = .ok ps)
    (hN : joinPlus (ps.map Prod.fst) ∉ keysOf cfg.mapping) :
    match_mismatched_barcode cfg barcode = .ok (cfg.unknown, 0, barcode)
    ∧ (∀ (α : Type) (sinks : List (Barcode × List α)) (r : DemultiplexResults)
        (rec : α) (oldu : List α),
      alookup cfg.unknown sinks = some oldu →
        FastqMismatchDemultiplexer.demultiplex_record cfg sinks r [] rec barcode 2
          = some (.ok (assocSet cfg.unknown (oldu ++ [rec]) sinks, r.add barcode 1 0,
              [(barcode, (cfg.unknown, 0, barcode))]))) := by
  have hmb : match_mismatched_barcode cfg barcode = .ok (cfg.unknown, 0, barcode) := by
    simp [match_mismatched_barcode, hA, hN]
  refine ⟨hmb, ?_⟩
  intro α sinks r rec oldu hu
  simp [FastqMismatchDemultiplexer.demultiplex_record, alookup, hmb,
    write_fastq_record, hu]

/-- Witness for C2: a single-segment barcode "TT" that matches no known
segment within distance 1. -/
theorem C2_witness :
    matchAllSegments ⟨[("AAA".data, "S1")], "U".data, 1⟩ 0 (splitPlus "TTT".data)
      = .ok [([], -1)]
    ∧ joinPlus ([([], (-1 : Int))].map Prod.fst) ∉ keysOf [(("AAA".data : Barcode), "S1")]
    ∧ match_mismatched_barcode ⟨[("AAA".data, "S1")], "U".data, 1⟩ "TTT".data
      = .ok ("U".data, 0, "TTT".data)
    ∧ FastqMismatchDemultiplexer.demultiplex_record ⟨[("AAA".data, "S1")], "U".data, 1⟩
        [("U".data, ([] : List Unit))] (DemultiplexResults.init [("AAA".data, "S1")])
        [] () "TTT".data 2
      = some (.ok (assocSet "U".data ([] ++ [()]) [("U".data, ([] : List Unit))],
          (DemultiplexResults.init [("AAA".data, "S1")]).add "TTT".data 1 0,
          [("TTT".data, ("U".data, 0, "TTT".data))])) := by
  have h := C2_unmatched_composite_is_unknown ⟨[("AAA".data, "S1")], "U".data, 1⟩
    "TTT".data [([], -1)] (by rfl) (by decide)
  exact ⟨by rfl, by decide, h.1, h.2 Unit _ _ () [] (by rfl)⟩

/-! ## Claim C6: memoization of the mismatch resolution -/

/-- Claim C6: under a fixed configuration the cache only ever holds the value
the pure resolution function computes, so (a) the invariant is preserved by a
processing step, (b) the cache grows monotonically — every earlier binding is
still present with the same value afterwards, and (c) after a successful step
the observed barcode is cached with exactly the pure resolution, so resolving
the same observed barcode a second time yields the identical
(resolved barcode, distance, count-key) triple. -/
theorem C6_memoization {α : Type} (cfg : MismatchConfig)
    (sinks : List (Barcode × List α)) (r : DemultiplexResults) (cache : Cache)
    (rec : α) (barcode : Barcode) (fuel : Nat)
    (sinks' : List (Barcode × List α)) (r' : DemultiplexResults) (cache' : Cache)
    (hOK : cacheOK cfg cache)
    (h : FastqMismatchDemultiplexer.demultiplex_record cfg sinks r cache rec barcode fuel
      = some (.ok (sinks', r', cache'))) :
    cacheOK cfg cache'
    ∧ (∀ b t, alookup b cache = some t → alookup b cache' = some t)
    ∧ (∃ t, alookup barcode cache' = some t
        ∧ match_mismatched_barcode cfg barcode = .ok t) := by
  induction fuel generalizing cache with
  | zero => simp [FastqMismatchDemultiplexer.demultiplex_record] at h
  | succ fuel ih =>
      cases hc : alookup barcode cache with
      | some t0 =>
          have ht0 : match_mismatched_barcode cfg barcode = .ok t0 := hOK barcode t0 hc
          cases hw : write_fastq_record sinks t0.1 rec with
          | some sinks1 =>
              simp only [FastqMismatchDemultiplexer.demultiplex_record, hc, hw] at h
              have hcc : cache' = cache := by
                cases h; rfl
              subst hcc
              exact ⟨hOK, fun b t hl => hl, t0, hc, ht0⟩
          | none =>
              simp only [FastqMismatchDemultiplexer.demultiplex_record, hc, hw, ht0] at h
              have hOK1 : cacheOK cfg ((barcode, t0) :: cache) := by
                intro b t hl
                by_cases hb : barcode = b
                · subst hb
                  simp only [alookup, if_pos rfl] at hl
                  cases hl
                  exact ht0
                · simp only [alookup, if_neg hb] at hl
                  exact hOK b t hl
              obtain ⟨g1, g2, g3⟩ := ih ((barcode, t0) :: cache) hOK1 h
              refine ⟨g1, ?_, g3⟩
              intro b t hl
              apply g2
              by_cases hb : barcode = b
              · subst hb
                have h1 := hOK barcode t hl
                rw [ht0] at h1
                have h2 : t0 = t := Except.ok.inj h1
                subst h2
                simp [alookup]
              · simp [alookup, hb, hl]
      | none =>
          cases hm : match_mismatched_barcode cfg barcode with
          | error e =>
              simp only [FastqMismatchDemultiplexer.demultiplex_record, hc, hm] at h
              exact Except.noConfusion (Option.some.inj h)
          | ok t0 =>
              simp only [FastqMismatchDemultiplexer.demultiplex_record, hc, hm] at h
              have hOK1 : cacheOK cfg ((barcode, t0) :: cache) := by
                intro b t hl
                by_cases hb : barcode = b
                · subst hb
                  simp only [alookup, if_pos rfl] at hl
                  cases hl
                  exact hm
                · simp only [alookup, if_neg hb] at hl
                  exact hOK b t hl
              obtain ⟨g1, g2, g3⟩ := ih ((barcode, t0) :: cache) hOK1 h
              rw [hm] at g3
              refine ⟨g1, ?_, g3⟩
              intro b t hl
              apply g2
              by_cases hb : barcode = b
              · subst hb
                rw [hc] at hl
                cases hl
              · simp [alookup, hb, hl]

/-- Witness for C6: a concrete successful step from the empty cache. -/
theorem C6_witness :
    cacheOK ⟨[("AAA".data, "S1")], "U".data, 1⟩
      (([("ATA".data, ("AAA".data, 1, "AAA".data))]) : Cache)
    ∧ (∃ t, alookup "ATA".data
        (([("ATA".data, ("AAA".data, 1, "AAA".data))]) : Cache) = some t
        ∧ match_mismatched_barcode ⟨[("AAA".data, "S1")], "U".data, 1⟩ "ATA".data
          = .ok t) := by
  have hOK : cacheOK ⟨[("AAA".data, "S1")], "U".data, 1⟩
      [("ATA".data, ("AAA".data, 1, "AAA".data))] := by
    intro b t hl
    by_cases hb : ("ATA".data : Barcode) = b
    · rw [← hb]
      simp only [alookup, if_pos rfl, ← hb] at hl
      cases hl
      rfl
    · simp only [alookup, if_neg hb] at hl
      cases hl
  have h := C6_memoization (α := Unit) ⟨[("AAA".data, "S1")], "U".data, 1⟩
    [("AAA".data, [])] (DemultiplexResults.init [("AAA".data, "S1")])
    [("ATA".data, ("AAA".data, 1, "AAA".data))] () "ATA".data 1
    (assocSet "AAA".data [()] [("AAA".data, [])])
    ((DemultiplexResults.init [("AAA".data, "S1")]).add "AAA".data 1 1)
    [("ATA".data, ("AAA".data, 1, "AAA".data))] hOK (by rfl)
  exact ⟨h.1, h.2.2⟩

/-! ## Claim C8: counts partition and match the number of processed records -/

theorem sumCounts_filter_partition (mapping : List (Barcode × String))
    (l : List (Barcode × Nat)) :
    sumCounts (l.filter (fun p => (alookup p.1 mapping).isSome))
      + sumCounts (l.filter (fun p => (alookup p.1 mapping).isNone))
      = sumCounts l := by
  induction l with
  | nil => simp [sumCounts]
  | cons p rest ih =>
      cases hm : alookup p.1 mapping with
      | none =>
          simp [List.filter_cons, hm, sumCounts] at ih ⊢
          omega
      | some s =>
          simp [List.filter_cons, hm, sumCounts] at ih ⊢
          omega

theorem write_fastq_record_size {α : Type} (sinks : List (Barcode × List α))
    (b : Barcode) (rec : α) (sinks' : List (Barcode × List α))
    (h : write_fastq_record sinks b rec = some sinks') :
    sinksSize sinks' = sinksSize sinks + 1 := by
  unfold write_fastq_record at h
  cases hl : alookup b sinks with
  | none => rw [hl] at h; cases h
  | some w =>
      rw [hl] at h
      cases h
      exact sinksSize_assocSet_append sinks b w rec hl

theorem demultiplex_record_step {α : Type} (u : Barcode) (sinks : List (Barcode × List α))
    (r : DemultiplexResults) (rec : α) (b : Barcode)
    (out : List (Barcode × List α) × DemultiplexResults)
    (h : FastqDemultiplexer.demultiplex_record u sinks r rec b = some out) :
    sumCounts out.2.barcode_counts = sumCounts r.barcode_counts + 1
    ∧ out.2.barcode_to_sample_mapping = r.barcode_to_sample_mapping
    ∧ sinksSize out.1 = sinksSize sinks + 1 := by
  unfold FastqDemultiplexer.demultiplex_record at h
  cases hw : write_fastq_record sinks b rec with
  | some sinks1 =>
      rw [hw] at h
      cases h
      exact ⟨sumCounts_bump _ _ _, rfl, write_fastq_record_size sinks b rec sinks1 hw⟩
  | none =>
      rw [hw] at h
      cases hw2 : write_fastq_record sinks u rec with
      | none => rw [hw2] at h; cases h
      | some sinks1 =>
          rw [hw2] at h
          cases h
          exact ⟨sumCounts_bump _ _ _, rfl, write_fastq_record_size sinks u rec sinks1 hw2⟩

/-- Claim C8: the known and unknown count views partition the full count table
(their grand totals add up to the total of `barcode_counts`), and since each
processed record is written to exactly one sink and bumps exactly one count
entry by one, after the exact engine's `demultiplex` loop the total count and
the total number of records in the sinks both grew by exactly the number of
processed records. -/
theorem C8_counts_partition_and_total {α : Type} (unknown_barcode : Barcode)
    (sinks : List (Barcode × List α)) (r : DemultiplexResults)
    (recs : List (α × Barcode)) (out : List (Barcode × List α) × DemultiplexResults)
    (h : FastqDemultiplexer.demultiplex unknown_barcode sinks r recs = some out) :
    sumCounts out.2.known_barcode_counts + sumCounts out.2.unknown_barcode_counts
      = sumCounts out.2.barcode_counts
    ∧ sumCounts out.2.barcode_counts = sumCounts r.barcode_counts + recs.length
    ∧ sinksSize out.1 = sinksSize sinks + recs.length := by
  refine ⟨sumCounts_filter_partition out.2.barcode_to_sample_mapping out.2.barcode_counts,
    ?_⟩
  induction recs generalizing sinks r with
  | nil =>
      unfold FastqDemultiplexer.demultiplex at h
      cases h
      simp
  | cons pr rest ih =>
      obtain ⟨rec, b⟩ := pr
      unfold FastqDemultiplexer.demultiplex at h
      cases hstep : FastqDemultiplexer.demultiplex_record unknown_barcode sinks r rec b with
      | none => rw [hstep] at h; cases h
      | some st =>
          rw [hstep] at h
          obtain ⟨s1, r1⟩ := st
          obtain ⟨hs1, hs2, hs3⟩ := demultiplex_record_step unknown_barcode sinks r rec b
            (s1, r1) hstep
          obtain ⟨g1, g2⟩ := ih s1 r1 h
          simp only [List.length_cons]
          constructor
          · rw [g1, hs1]
            omega
          · rw [g2, hs3]
            omega

/-- Witness for C8: two records with unregistered barcodes at a concrete
state. -/
theorem C8_witness :
    FastqDemultiplexer.demultiplex "U".data [("U".data, ([] : List Unit))]
      (DemultiplexResults.init []) [((), "X".data), ((), "Y".data)]
      = some ([("U".data, [(), ()])],
          ((DemultiplexResults.init []).add "X".data 1 0).add "Y".data 1 0)
    ∧ (sumCounts (((DemultiplexResults.init []).add "X".data 1 0).add "Y".data 1 0).known_barcode_counts
        + sumCounts (((DemultiplexResults.init []).add "X".data 1 0).add "Y".data 1 0).unknown_barcode_counts
        = sumCounts (((DemultiplexResults.init []).add "X".data 1 0).add "Y".data 1 0).barcode_counts)
    ∧ sumCounts (((DemultiplexResults.init []).add "X".data 1 0).add "Y".data 1 0).barcode_counts
        = sumCounts (DemultiplexResults.init []).barcode_counts + 2
    ∧ sinksSize [("U".data, [(), ()])]
        = sinksSize [("U".data, ([] : List Unit))] + 2 := by
  have h : FastqDemultiplexer.demultiplex "U".data [("U".data, ([] : List Unit))]
      (DemultiplexResults.init []) [((), "X".data), ((), "Y".data)]
      = some ([("U".data, [(), ()])],
          ((DemultiplexResults.init []).add "X".data 1 0).add "Y".data 1 0) := by rfl
  have hc := C8_counts_partition_and_total "U".data [("U".data, ([] : List Unit))]
    (DemultiplexResults.init []) [((), "X".data), ((), "Y".data)]
    ([("U".data, [(), ()])], ((DemultiplexResults.init []).add "X".data 1 0).add "Y".data 1 0) h
  exact ⟨h, hc.1, hc.2.1, hc.2.2⟩

/-! ## Claim C10: summarize_counts -/

theorem insertDesc_perm (x : κ × Nat) (l : List (κ × Nat)) :
    List.Perm (insertDesc x l) (x :: l) := by
  induction l with
  | nil => exact List.Perm.refl _
  | cons y ys ih =>
      by_cases h : y.2 ≤ x.2
      · simp [insertDesc, h]
      · simp only [insertDesc, if_neg h]
        exact (ih.cons y).trans (List.Perm.swap x y ys)

theorem sortDesc_perm (l : List (κ × Nat)) : List.Perm (sortDesc l) l := by
  induction l with
  | nil => exact List.Perm.refl _
  | cons x xs ih => exact (insertDesc_perm x (sortDesc xs)).trans (ih.cons x)

theorem insertDesc_sorted (x : κ × Nat) (l : List (κ × Nat))
    (h : l.Pairwise (fun a b => b.2 ≤ a.2)) :
    (insertDesc x l).Pairwise (fun a b => b.2 ≤ a.2) := by
  induction l with
  | nil => simp [insertDesc]
  | cons y ys ih =>
      rw [List.pairwise_cons] at h
      obtain ⟨hy, hys⟩ := h
      by_cases hle : y.2 ≤ x.2
      · simp only [insertDesc, if_pos hle]
        refine List.Pairwise.cons ?_ (List.Pairwise.cons hy hys)
        intro z hz
        rcases List.mem_cons.mp hz with hz | hz
        · rw [hz]; exact hle
        · exact le_trans (hy z hz) hle
      · simp only [insertDesc, if_neg hle]
        refine List.Pairwise.cons ?_ (ih hys)
        intro z hz
        have hz2 := (insertDesc_perm x ys).mem_iff.mp hz
        rcases List.mem_cons.mp hz2 with hz' | hz'
        · rw [hz']; omega
        · exact hy z hz'

theorem sortDesc_sorted (l : List (κ × Nat)) :
    (sortDesc l).Pairwise (fun a b => b.2 ≤ a.2) := by
  induction l with
  | nil => simp [sortDesc]
  | cons x xs ih => exact insertDesc_sorted x (sortDesc xs) ih

theorem filter_insertDesc (c : Nat) (x : κ × Nat) (l : List (κ × Nat)) :
    (insertDesc x l).filter (fun p => decide (p.2 = c))
      = if x.2 = c then x :: l.filter (fun p => decide (p.2 = c))
        else l.filter (fun p => decide (p.2 = c)) := by
  induction l with
  | nil =>
      by_cases hx : x.2 = c <;> simp [insertDesc, hx]
  | cons y ys ih =>
      by_cases hle : y.2 ≤ x.2
      · simp only [insertDesc, if_pos hle, List.filter_cons]
        by_cases hx : x.2 = c <;> simp [hx]
      · simp only [insertDesc, if_neg hle, List.filter_cons, ih]
        by_cases hx : x.2 = c
        · have hy : ¬ y.2 = c := by omega
          simp [hx, hy]
        · simp [hx]

/-- Stability of the sort: for every count value, the entries carrying that
count appear in the sorted list exactly in their original (first-seen)
order. -/
theorem sortDesc_filter (c : Nat) (l : List (κ × Nat)) :
    (sortDesc l).filter (fun p => decide (p.2 = c))
      = l.filter (fun p => decide (p.2 = c)) := by
  induction l with
  | nil => rfl
  | cons x xs ih =>
      simp only [sortDesc, filter_insertDesc, ih, List.filter_cons]
      by_cases hx : x.2 = c <;> simp [hx]

theorem filter_snd_of_map (l : List (Barcode × Nat)) (g : Barcode × Nat → Barcode × Nat × ℚ)
    (hg : ∀ p, (g p).2.1 = p.2) (c : Nat) :
    (l.map g).filter (fun t => decide (t.2.1 = c))
      = (l.filter (fun p => decide (p.2 = c))).map g := by
  induction l with
  | nil => rfl
  | cons p rest ih =>
      simp only [List.map_cons, List.filter_cons, hg, ih]
      by_cases hp : p.2 = c <;> simp [hp]

/-- Amended claim C10: for a results state with at least one counted record,
`summarize_counts(barcode_set, n_values)` returns (barcode, count, percent)
tuples drawn from the requested subset counter, sorted by count descending
with ties in first-seen order, truncated to `n_values` when given, each
percent computed as `round(100 * count / total, 1)` with `total` the grand
total over ALL barcodes (known and unknown together).  The original claim's
assertion that the percentages sum to at most 100.0 is dropped: rounding can
push the sum above 100 (see the counterexample with counts 1, 1, 4). -/
theorem C10_amended_summarize (r : DemultiplexResults) (barcode_set : String)
    (n_values : Option Nat) (_htotal : 0 < sumCounts r.barcode_counts) :
    (r.summarize_counts barcode_set n_values).Pairwise (fun a b => b.2.1 ≤ a.2.1)
    ∧ (∀ t ∈ r.summarize_counts barcode_set n_values,
        (t.1, t.2.1) ∈ r.counterFor barcode_set)
    ∧ (∀ t ∈ r.summarize_counts barcode_set n_values,
        t.2.2 = round1 ((100 * (t.2.1 : ℚ)) / ((sumCounts r.barcode_counts : Nat) : ℚ)))
    ∧ (∀ nv : Nat, (r.summarize_counts barcode_set (some nv)).length ≤ nv)
    ∧ (∀ c : Nat, (r.summarize_counts barcode_set none).filter
          (fun t => decide (t.2.1 = c))
        = ((r.counterFor barcode_set).filter (fun p => decide (p.2 = c))).map
            (fun p => (p.1, p.2,
              round1 ((100 * (p.2 : ℚ)) / ((sumCounts r.barcode_counts : Nat) : ℚ))))) := by
  have hexp : ∀ n, r.summarize_counts barcode_set n
      = (most_common (r.counterFor barcode_set) n).map
          (fun p => (p.1, p.2,
            round1 ((100 * (p.2 : ℚ)) / ((sumCounts r.barcode_counts : Nat) : ℚ)))) := by
    intro n
    rfl
  have hsub : ∀ n, List.Sublist (most_common (r.counterFor barcode_set) n)
      (sortDesc (r.counterFor barcode_set)) := by
    intro n
    cases n with
    | none => exact List.Sublist.refl _
    | some nv => exact List.take_sublist nv _
  refine ⟨?_, ?_, ?_, ?_, ?_⟩
  · rw [hexp, List.pairwise_map]
    exact List.Pairwise.sublist (hsub n_values) (sortDesc_sorted _)
  · intro t ht
    rw [hexp, List.mem_map] at ht
    obtain ⟨p, hp, hpt⟩ := ht
    rw [← hpt]
    exact (sortDesc_perm _).mem_iff.mp ((hsub n_values).subset hp)
  · intro t ht
    rw [hexp, List.mem_map] at ht
    obtain ⟨p, hp, hpt⟩ := ht
    rw [← hpt]
  · intro nv
    rw [hexp]
    simp only [most_common, List.length_map]
    exact List.length_take_le nv _
  · intro c
    rw [hexp]
    rw [filter_snd_of_map _ _ (fun p => rfl) c]
    simp only [most_common]
    rw [sortDesc_filter]

/-- Counterexample to claim C10's "percentages sum to at most 100.0": with
counts A:1, B:1, C:4 (total 6) the percents are 16.7, 16.7 and 66.7, summing
to 100.1. -/
theorem C10_counterexample :
    ((((DemultiplexResults.mk [] [("A".data, 1), ("B".data, 1), ("C".data, 4)]
        []).summarize_counts "all" none).map (fun t => t.2.2)).sum : ℚ) = 1001/10
    ∧ ¬ ((((DemultiplexResults.mk [] [("A".data, 1), ("B".data, 1), ("C".data, 4)]
        []).summarize_counts "all" none).map (fun t => t.2.2)).sum ≤ (100 : ℚ)) := by
  have h : (((DemultiplexResults.mk [] [("A".data, 1), ("B".data, 1), ("C".data, 4)]
        []).summarize_counts "all" none).map (fun t => t.2.2))
      = [round1 ((100 * ((4 : Nat) : ℚ)) / (((6 : Nat) : Nat) : ℚ)),
         round1 ((100 * ((1 : Nat) : ℚ)) / (((6 : Nat) : Nat) : ℚ)),
         round1 ((100 * ((1 : Nat) : ℚ)) / (((6 : Nat) : Nat) : ℚ))] := by rfl
  rw [h]
  norm_num [round1, roundHalfEven, List.sum_cons, List.sum_nil]

/-- Witness for C10's amended statement at a concrete state. -/
theorem C10_amended_witness :
    (0 < sumCounts (DemultiplexResults.mk [("A".data, "S1")]
        [("A".data, 1), ("B".data, 2)] []).barcode_counts)
    ∧ ((DemultiplexResults.mk [("A".data, "S1")] [("A".data, 1), ("B".data, 2)]
        []).summarize_counts "unknown" (some 5)).Pairwise (fun a b => b.2.1 ≤ a.2.1) := by
  refine ⟨by decide, ?_⟩
  exact (C10_amended_summarize (DemultiplexResults.mk [("A".data, "S1")]
    [("A".data, 1), ("B".data, 2)] []) "unknown" (some 5) (by decide)).1

/-! ## Claim C1: the per-segment mismatch scan and its ambiguity rule -/

theorem idxOf?_eq_none_iff [DecidableEq κ] (x : κ) (l : List κ) :
    idxOf? x l = none ↔ x ∉ l := by
  induction l with
  | nil => simp [idxOf?]
  | cons y ys ih =>
      by_cases h : y = x
      · simp [idxOf?, h]
      · simp only [idxOf?, if_neg h, List.mem_cons, Option.map_eq_none']
        rw [ih]
        constructor
        · intro hn hm
          rcases hm with hm | hm
          · exact h hm.symm
          · exact hn hm
        · intro hn hm
          exact hn (Or.inr hm)

theorem distinctCount_le_length [DecidableEq κ] (l : List κ) :
    distinctCount l ≤ l.length := by
  induction l with
  | nil => simp [distinctCount]
  | cons x xs ih =>
      by_cases h : x ∈ xs <;> simp [distinctCount, h] <;> omega

theorem filter_zip_map (known : List Barcode) (f : Barcode → Nat) (d : Nat) :
    ((known.zip (known.map f)).filter (fun p => decide (p.2 = d))).map Prod.fst
      = known.filter (fun x => decide (f x = d)) := by
  induction known with
  | nil => rfl
  | cons x xs ih =>
      simp only [List.map_cons, List.zip_cons_cons, List.filter_cons]
      by_cases h : f x = d <;> simp [h, ih]

theorem countOcc_map (known : List Barcode) (f : Barcode → Nat) (d : Nat) :
    countOcc d (known.map f) = (known.filter (fun x => decide (f x = d))).length := by
  induction known with
  | nil => rfl
  | cons x xs ih =>
      simp only [List.map_cons, countOcc, List.filter_cons] at ih ⊢
      by_cases h : f x = d <;> simp [h, ih]

theorem getD_idxOf (f : Barcode → Nat) (d : Nat) :
    ∀ (known : List Barcode) (i : Nat), idxOf? d (known.map f) = some i →
      known.getD i [] = (known.filter (fun x => decide (f x = d))).headD [] := by
  intro known
  induction known with
  | nil => intro i h; simp [idxOf?] at h
  | cons x xs ih =>
      intro i h
      by_cases hfx : f x = d
      · simp only [List.map_cons, idxOf?, if_pos hfx] at h
        cases h
        simp [List.filter_cons, hfx]
      · simp only [List.map_cons, idxOf?, if_neg hfx] at h
        cases hix : idxOf? d (xs.map f) with
        | none => rw [hix] at h; cases h
        | some j =>
            rw [hix] at h
            cases h
            simp only [List.getD_cons_succ]
            rw [ih j hix]
            simp [List.filter_cons, hfx]

theorem matchScan_eq (known : List Barcode) (f : Barcode → Nat) (cands : List Nat) :
    matchScan known (known.map f) cands
      = match cands.find? (fun d => decide (d ∈ known.map f)) with
        | none => .ok ([], -1)
        | some d =>
            if 1 < distinctCount (known.filter (fun x => decide (f x = d)))
            then .error .ambiguous
            else .ok ((known.filter (fun x => decide (f x = d))).headD [], (d : Int)) := by
  induction cands with
  | nil => rfl
  | cons c cs ih =>
      by_cases hc : c ∈ known.map f
      · have hex : ∃ i, idxOf? c (known.map f) = some i := by
          cases hix : idxOf? c (known.map f) with
          | none => exact absurd ((idxOf?_eq_none_iff c _).mp hix) (not_not_intro hc)
          | some i => exact ⟨i, rfl⟩
        obtain ⟨i, hix⟩ := hex
        have hfind : (c :: cs).find? (fun d => decide (d ∈ known.map f)) = some c := by
          simp [List.find?, hc]
        rw [hfind]
        simp only [matchScan, hix, filter_zip_map]
        by_cases hdc : 1 < distinctCount (known.filter (fun x => decide (f x = c)))
        · have hco : countOcc c (known.map f) > 1 := by
            rw [countOcc_map]
            exact lt_of_lt_of_le hdc (distinctCount_le_length _)
          rw [if_pos ⟨hco, hdc⟩, if_pos hdc]
        · have hguard : ¬ (countOcc c (known.map f) > 1
              ∧ 1 < distinctCount (known.filter (fun x => decide (f x = c)))) := by
            intro hh
            exact hdc hh.2
          rw [if_neg hguard, if_neg hdc, getD_idxOf f c known i hix]
      · have hix : idxOf? c (known.map f) = none := (idxOf?_eq_none_iff c _).mpr hc
        have hfind : (c :: cs).find? (fun d => decide (d ∈ known.map f))
            = cs.find? (fun d => decide (d ∈ known.map f)) := by
          simp [List.find?, hc]
        rw [hfind]
        simp only [matchScan, hix]
        exact ih

/-- Counterexample to claim C1: two known composite barcodes "AA+CC" and
"AA+GG" share the segment "AA" at position 0 (their segment lists are
["AA", "AA"]).  For the observed segment "AA" BOTH entries achieve the lowest
distance 0, and they belong to DIFFERENT composite known barcodes, so the
claim mandates an AmbiguousBarcode failure — but the matcher succeeds,
returning ("AA", 0): its ambiguity test compares distinct segment strings,
not the composite barcodes they map to. -/
theorem C1_counterexample :
    segmentsAt (keysOf [("AA+CC".data, "S1"), ("AA+GG".data, "S2")]) 0
      = .ok ["AA".data, "AA".data]
    ∧ ("AA+CC".data : Barcode) ≠ "AA+GG".data
    ∧ hamming_distance "AA".data "AA".data = 0
    ∧ countOcc 0 (["AA".data, "AA".data].map
        (fun x => hamming_distance x "AA".data)) = 2
    ∧ match_mismatched_single_barcode 1 "AA".data ["AA".data, "AA".data]
      = .ok ("AA".data, 0) := by
  refine ⟨by rfl, by decide, by rfl, by rfl, by rfl⟩

/-- Amended claim C1: the mismatch-tolerant matcher scans distances 0..k in
increasing order; at the first distance `d` achieved by some known segment it
selects the first achieving segment when all entries achieving `d` are the
SAME segment string (in particular when exactly one entry achieves `d`), and
fails with the AmbiguousBarcode error — without falling back to a higher
distance — exactly when entries with two or more DISTINCT segment strings
achieve `d`; whether those entries come from the same or from different
composite known barcodes plays no role.  Stated as equality with
`matchSingleSpec`, the textbook form of that description. -/
theorem C1_amended_scan (mismatches : Nat) (barcode : Barcode)
    (known_barcodes : List Barcode) (_hk : 0 < mismatches) :
    match_mismatched_single_barcode mismatches barcode known_barcodes
      = matchSingleSpec mismatches barcode known_barcodes := by
  unfold match_mismatched_single_barcode matchSingleSpec
  rw [matchScan_eq known_barcodes (fun x => hamming_distance x barcode)
    (List.range (mismatches + 1))]
  cases hfind : (List.range (mismatches + 1)).find?
      (fun d => decide (d ∈ known_barcodes.map (fun x => hamming_distance x barcode))) with
  | none => rfl
  | some d => simp only [filter_zip_map]

/-- Witness for the amended C1 at a concrete input. -/
theorem C1_amended_witness :
    (0 < 2)
    ∧ match_mismatched_single_barcode 2 "BBCCBB".data
        ["AAAAAA".data, "BBBBBB".data, "BCBCBC".data]
      = matchSingleSpec 2 "BBCCBB".data ["AAAAAA".data, "BBBBBB".data, "BCBCBC".data] :=
  ⟨by decide, C1_amended_scan 2 "BBCCBB".data
    ["AAAAAA".data, "BBBBBB".data, "BCBCBC".data] (by decide)⟩

/-- Witness for C9 at a concrete state. -/
theorem C9_witness :
    ((alookup "AA".data (DemultiplexResults.init [("AA".data, "S1")]).barcode_mismatches_count).isSome
      = (alookup "AA".data (DemultiplexResults.init [("AA".data, "S1")]).barcode_to_sample_mapping).isSome)
    ∧ (alookup "AA".data ((DemultiplexResults.init [("AA".data, "S1")]).add "AA".data 2 1).barcode_counts
        = some 2) := by
  have h := C9_add_raw_count_and_histogram (DemultiplexResults.init [("AA".data, "S1")])
    "AA".data 2 1 (by decide)
  exact ⟨by decide, by rw [h.1]; decide⟩

end FastqDemux
